import Mathlib

/-!
Shallow embedding of the TwitchDropsMiner core (src/constants.py, src/twitch.py,
src/websocket.py) and proofs about its claimed behaviour.

Conventions: Python sets of topics are insertion-ordered lists with unique keys;
Python dicts are association lists; exceptions are `Except` errors, except where
the Python code raises after mutating state, in which case the post-raise state
is part of the returned record.  Machine-level details (asyncio scheduling, JSON
text) are abstracted: `json.loads` of an inner payload is an arbitrary function
argument, and handlers are values of an arbitrary type `H`.
-/

namespace TDM

/-- A websocket topic (constants.py, class `WebsocketTopic`, lines 106-122):
identity is the string `id`; `process` is the registered handler.  The handler
type is a parameter `H` so theorems can quantify over handlers. -/
structure WebsocketTopic (H : Type) where
  id : String
  process : H
deriving DecidableEq

/-- Python `WebsocketTopic.__eq__` against another topic (constants.py 117-118):
compares the ids only, never the handlers. -/
def topicEqTopic (a b : WebsocketTopic H) : Bool :=
  a.id == b.id

/-- Python `WebsocketTopic.__eq__` against a bare string (constants.py 115-116):
compares the id to the string. -/
def topicEqStr (a : WebsocketTopic H) (s : String) : Bool :=
  a.id == s

/-- Python `WebsocketTopic.__hash__` (constants.py 121-122): `hash(self.id)`.
The interpreter's string hash is opaque, so it is a parameter `hs`. -/
def topicHash (hs : String → Nat) (a : WebsocketTopic H) : Nat :=
  hs a.id

/-- C9: topic equality and hashing depend only on the string key: two topics with
equal keys are equal and hash-equal regardless of their handlers, a topic compares
equal to the bare string equal to its key, and topics with unequal keys are
unequal. -/
theorem C9_topic_identity_by_key (H : Type) (hs : String → Nat)
    (k k' : String) (h₁ h₂ : H) (hne : k ≠ k') :
    topicEqTopic ⟨k, h₁⟩ ⟨k, h₂⟩ = true ∧
    topicHash hs ⟨k, h₁⟩ = topicHash hs ⟨k, h₂⟩ ∧
    topicEqStr ⟨k, h₁⟩ k = true ∧
    topicEqTopic ⟨k, h₁⟩ ⟨k', h₂⟩ = false := by
  refine ⟨?_, rfl, ?_, ?_⟩ <;> simp [topicEqTopic, topicEqStr, hne]

/-- Witness for C9 at concrete topics with keys "a" and "b" and handlers 0, 1. -/
theorem C9_witness :
    topicEqTopic ⟨"a", 0⟩ ⟨"a", 1⟩ = true ∧
    topicHash (fun _ => 7) ⟨"a", (0 : Nat)⟩ = topicHash (fun _ => 7) ⟨"a", 1⟩ ∧
    topicEqStr ⟨"a", (0 : Nat)⟩ "a" = true ∧
    topicEqTopic ⟨"a", (0 : Nat)⟩ ⟨"b", 1⟩ = false :=
  C9_topic_identity_by_key Nat (fun _ => 7) "a" "b" 0 1 (by decide)

/-! Python dicts with string keys, for `GQLOperation` (constants.py 18-35). -/

/-- A Python dict with string keys over values `V`, as an insertion-ordered
association list; lookups see the first binding of a key. -/
abbrev PyDict (V : Type) := List (String × V)

/-- Python `d[k]` lookup, `Option`-valued. -/
def dictGet (d : PyDict V) (k : String) : Option V :=
  (d.find? (fun kv => kv.1 == k)).map (fun kv => kv.2)

/-- Python `d[k] = v`: replaces the first binding of `k` when present, otherwise
appends the new binding at the end. -/
def dictSet (d : PyDict V) (k : String) (v : V) : PyDict V :=
  match d with
  | [] => [(k, v)]
  | kv :: rest => if kv.1 == k then (k, v) :: rest else kv :: dictSet rest k v

theorem dictGet_cons (kv : String × V) (l : PyDict V) (k : String) :
    dictGet (kv :: l) k = if kv.1 = k then some kv.2 else dictGet l k := by
  by_cases h : kv.1 = k
  · simp [dictGet, List.find?, h]
  · have hb : (kv.1 == k) = false := beq_eq_false_iff_ne.mpr h
    simp [dictGet, List.find?, h, hb]

theorem dictGet_dictSet_self (d : PyDict V) (k : String) (v : V) :
    dictGet (dictSet d k v) k = some v := by
  induction d with
  | nil => simp [dictSet, dictGet]
  | cons kv rest ih =>
    by_cases h : kv.1 = k
    · simp [dictSet, dictGet_cons, h]
    · simp [dictSet, dictGet_cons, h, ih]

theorem dictGet_dictSet_other (d : PyDict V) (k k' : String) (v : V) (h : k' ≠ k) :
    dictGet (dictSet d k v) k' = dictGet d k' := by
  induction d with
  | nil => simp [dictSet, dictGet_cons, dictGet, Ne.symm h]
  | cons kv rest ih =>
    by_cases hk : kv.1 = k
    · subst hk
      simp [dictSet, dictGet_cons, Ne.symm h]
    · by_cases hk' : kv.1 = k'
      · simp [dictSet, dictGet_cons, hk, hk', h]
      · simp [dictSet, dictGet_cons, hk, hk', h, ih]

/-- GQLOperation.with_variables (constants.py 32-35): `copy(self)` allocates a
fresh top-level dict, so the subsequent item assignment targets only the copy.
The pair returned is (the state of `self` after the call, the returned modified
dict): `self` is untouched precisely because of the copy. -/
def with_variables (op : PyDict V) (vars : V) : PyDict V × PyDict V :=
  let modified := dictSet op "variables" vars
  (op, modified)

/-- C10: `with_variables v` returns a new operation whose "variables" entry
equals `v` and which agrees with the original on every other top-level key, and
the original operation is left unchanged by the call. -/
theorem C10_with_variables_fresh (V : Type) (op : PyDict V) (v : V) :
    (with_variables op v).1 = op ∧
    dictGet (with_variables op v).2 "variables" = some v ∧
    ∀ k, k ≠ "variables" → dictGet (with_variables op v).2 k = dictGet op k :=
  ⟨rfl, dictGet_dictSet_self op "variables" v,
    fun k hk => dictGet_dictSet_other op "variables" k v hk⟩

/-- Witness for C10 at a concrete one-entry operation dict. -/
theorem C10_witness :
    (with_variables [("operationName", 1)] 2).1 = [("operationName", (1 : Nat))] ∧
    dictGet (with_variables [("operationName", 1)] 2).2 "variables" = some 2 ∧
    dictGet (with_variables [("operationName", (1 : Nat))] 2).2 "operationName" = some 1 := by
  refine ⟨(C10_with_variables_fresh Nat [("operationName", 1)] 2).1,
    (C10_with_variables_fresh Nat [("operationName", 1)] 2).2.1, ?_⟩
  have h := (C10_with_variables_fresh Nat [("operationName", 1)] 2).2.2
    "operationName" (by decide)
  rw [h]
  rfl

/-! The watch scheduler (twitch.py, `Twitch.run` lines 117-145 and
`Twitch.watch` lines 147-173). -/

/-- The part of a stream record that the eligibility check of `Twitch.run`
reads (the `Channel`/`Stream` classes live in channel.py, outside src/; the
fields here are exactly those twitch.py 124-127 accesses). -/
structure Stream where
  drops_enabled : Bool
  game : String
deriving DecidableEq

/-- A tracked channel as `Twitch.run` sees it: `stream` is `None` when
offline. -/
structure Channel where
  id : Nat
  name : String
  stream : Option Stream
deriving DecidableEq

/-- The eligibility test of twitch.py 124-127: `channel.stream is not None and
channel.stream.drops_enabled and channel.stream.game in games`. -/
def channelEligible (games : List String) (c : Channel) : Bool :=
  match c.stream with
  | some s => s.drops_enabled && games.contains s.game
  | none => false

/-- The scheduler state of `Twitch`: `_watching_channel` (by channel id),
whether `_watching_task` exists, the `_channel_change` event, and the local
`refresh_channels` flag of `run`. -/
structure SchedState where
  watching : Option Nat
  hasTask : Bool
  channelChange : Bool
  refreshChannels : Bool
deriving DecidableEq

/-- Observable scheduler actions: cancelling the watcher task, starting a new
watcher task for a channel, the full `get_stream` refresh pass, and the
120-second sleep. -/
inductive SchedAction where
  | cancelTask
  | startTask (chId : Nat)
  | refreshAllChannels
  | sleep120
deriving DecidableEq

/-- Twitch.watch (twitch.py 147-173): cancels the previous watcher task if one
is running, then records the channel and starts a new watcher task.  There is
no check that the channel differs from the one already watched. -/
def watch (st : SchedState) (c : Channel) : SchedState × List SchedAction :=
  ({ st with watching := some c.id, hasTask := true },
    (if st.hasTask then [SchedAction.cancelTask] else []) ++ [SchedAction.startTask c.id])

/-- One wake-up of the while-loop body of Twitch.run (twitch.py 122-145) after
`_channel_change.wait()` returns: scan the channels in insertion order, watch
the first eligible one (setting `refresh_channels` and clearing the event), or
fall back to one refresh pass / the 120-second sleep. -/
def reevaluate (games : List String) (channels : List Channel) (st : SchedState) :
    SchedState × List SchedAction :=
  match channels.find? (channelEligible games) with
  | some c =>
    let r := watch st c
    ({ r.1 with refreshChannels := true, channelChange := false }, r.2)
  | none =>
    if st.refreshChannels then
      ({ st with refreshChannels := false }, [SchedAction.refreshAllChannels])
    else
      (st, [SchedAction.sleep120])

/-- C6: channels are scanned in insertion order and the first one satisfying the
three eligibility predicates is watched; in particular with two eligible
channels the first-listed one is selected. -/
theorem C6_first_eligible_selected (games : List String) (channels : List Channel)
    (st : SchedState) :
    (∀ c, channels.find? (channelEligible games) = some c →
      (reevaluate games channels st).1.watching = some c.id ∧
      SchedAction.startTask c.id ∈ (reevaluate games channels st).2) ∧
    (∀ A B rest, channelEligible games A = true →
      List.find? (channelEligible games) (A :: B :: rest) = some A) := by
  constructor
  · intro c hc
    simp [reevaluate, hc, watch]
  · intro A B rest hA
    simp [List.find?, hA]

/-- Witness for C6: channels A (id 1) and B (id 2) both online with drops
enabled on game "g"; A is selected and a watcher task for A is started. -/
theorem C6_witness :
    (reevaluate ["g"] [⟨1, "a", some ⟨true, "g"⟩⟩, ⟨2, "b", some ⟨true, "g"⟩⟩]
        ⟨none, false, true, false⟩).1.watching = some 1 ∧
    SchedAction.startTask 1 ∈
      (reevaluate ["g"] [⟨1, "a", some ⟨true, "g"⟩⟩, ⟨2, "b", some ⟨true, "g"⟩⟩]
        ⟨none, false, true, false⟩).2 := by
  have hfind := (C6_first_eligible_selected ["g"]
      [⟨1, "a", some ⟨true, "g"⟩⟩, ⟨2, "b", some ⟨true, "g"⟩⟩] ⟨none, false, true, false⟩).2
      ⟨1, "a", some ⟨true, "g"⟩⟩ ⟨2, "b", some ⟨true, "g"⟩⟩ [] (by decide)
  exact (C6_first_eligible_selected ["g"]
      [⟨1, "a", some ⟨true, "g"⟩⟩, ⟨2, "b", some ⟨true, "g"⟩⟩] ⟨none, false, true, false⟩).1
      ⟨1, "a", some ⟨true, "g"⟩⟩ hfind

/-- C5 counterexample: channel 1 is the first eligible channel and is already
the engaged one with a running watcher task, and eligibility is unchanged —
yet re-evaluation cancels the running periodic action and starts a new one,
refuting "no cancel/start pair fires". -/
theorem C5_counterexample :
    List.find? (channelEligible ["g"]) [⟨1, "a", some ⟨true, "g"⟩⟩] =
      some ⟨1, "a", some ⟨true, "g"⟩⟩ ∧
    (reevaluate ["g"] [⟨1, "a", some ⟨true, "g"⟩⟩] ⟨some 1, true, true, true⟩).2 =
      [SchedAction.cancelTask, SchedAction.startTask 1] := by
  decide

/-- C5 amended: re-evaluation is not idempotent: whenever a first eligible
channel exists and a watcher task is running, the task is cancelled and a new
one is started — unconditionally, even when the selected channel is the
currently engaged one. -/
theorem C5_amended_unconditional_switch (games : List String) (channels : List Channel)
    (st : SchedState) (c : Channel)
    (hc : channels.find? (channelEligible games) = some c) (ht : st.hasTask = true) :
    (reevaluate games channels st).2 =
      [SchedAction.cancelTask, SchedAction.startTask c.id] := by
  simp [reevaluate, hc, watch, ht]

/-- Witness for the amended C5 at the configuration of the counterexample. -/
theorem C5_amended_witness :
    (reevaluate ["g"] [⟨1, "a", some ⟨true, "g"⟩⟩] ⟨some 1, true, true, true⟩).2 =
      [SchedAction.cancelTask, SchedAction.startTask 1] :=
  C5_amended_unconditional_switch ["g"] [⟨1, "a", some ⟨true, "g"⟩⟩]
    ⟨some 1, true, true, true⟩ ⟨1, "a", some ⟨true, "g"⟩⟩ (by decide) rfl

/-! The subscription registry (websocket.py, `Websocket.add_topics`,
lines 160-184). -/

/-- The key list of a topic list. -/
def topicKeys (l : List (WebsocketTopic H)) : List String :=
  l.map (fun t => t.id)

/-- Python set-membership test against `held` for `t`: topic equality is by the
string key (see `WebsocketTopic`), so this asks whether some held topic carries
`t`'s key. -/
def keyHeld (held : List (WebsocketTopic H)) (t : WebsocketTopic H) : Bool :=
  held.any (fun u => u.id == t.id)

/-- Python `set(topics)` (websocket.py 162): deduplication by topic key; the
first occurrence of each key is the one the set retains. -/
def setOfTopics (ts : List (WebsocketTopic H)) : List (WebsocketTopic H) :=
  ts.foldl (fun acc t => if keyHeld acc t then acc else acc ++ [t]) []

/-- The LISTEN request handed to `Websocket.send` (websocket.py 176-184):
a topic-key list and the authorization token. -/
structure ListenMsg where
  topics : List String
  auth_token : String
deriving DecidableEq

/-- Result of one `add_topics` call: the `_topics` set after the call, the
LISTEN request emitted (if any), and whether `MinerException("Too many topics")`
was raised.  The Python code raises only after `self._topics.update(topics)`,
so the post-raise set is part of the result. -/
structure AddResult (H : Type) where
  topics : List (WebsocketTopic H)
  sent : Option ListenMsg
  error : Bool

/-- Websocket.add_topics (websocket.py 160-184): deduplicate the argument, drop
topics whose key is already held, and no-op when nothing is left; otherwise
commit the union into `_topics`, raise the capacity error when the committed
size reaches 50, and otherwise emit one LISTEN request whose topic list is
`list(map(str, topics))` — the newly added topics only. -/
def add_topics (held : List (WebsocketTopic H)) (auth_token : String)
    (topics : List (WebsocketTopic H)) : AddResult H :=
  let ts := (setOfTopics topics).filter (fun t => !keyHeld held t)
  if ts.isEmpty then
    { topics := held, sent := none, error := false }
  else
    let committed := held ++ ts
    if 50 ≤ committed.length then
      { topics := committed, sent := none, error := true }
    else
      { topics := committed,
        sent := some { topics := ts.map (fun t => t.id), auth_token := auth_token },
        error := false }

/-- A sequence of `add_topics` calls, each seeing the `_topics` set the previous
call left behind (also after an error, since the raise happens after the
update). -/
def add_topics_seq (held : List (WebsocketTopic H)) (auth : String) :
    List (List (WebsocketTopic H)) → List (WebsocketTopic H)
  | [] => held
  | c :: cs => add_topics_seq (add_topics held auth c).topics auth cs

theorem mem_topicKeys (l : List (WebsocketTopic H)) (k : String) :
    k ∈ topicKeys l ↔ ∃ t ∈ l, t.id = k := by
  simp [topicKeys]

theorem keyHeld_iff (held : List (WebsocketTopic H)) (t : WebsocketTopic H) :
    keyHeld held t = true ↔ t.id ∈ topicKeys held := by
  rw [mem_topicKeys]
  simp [keyHeld, List.any_eq_true]

theorem keyHeld_eq_false_iff (held : List (WebsocketTopic H)) (t : WebsocketTopic H) :
    keyHeld held t = false ↔ t.id ∉ topicKeys held := by
  rw [← keyHeld_iff]
  simp

theorem topicKeys_append (l₁ l₂ : List (WebsocketTopic H)) :
    topicKeys (l₁ ++ l₂) = topicKeys l₁ ++ topicKeys l₂ := by
  simp [topicKeys]

theorem mem_topicKeys_foldl (ts : List (WebsocketTopic H)) :
    ∀ acc k,
      k ∈ topicKeys (ts.foldl (fun acc t => if keyHeld acc t then acc else acc ++ [t]) acc) ↔
        k ∈ topicKeys acc ∨ k ∈ topicKeys ts := by
  induction ts with
  | nil => intro acc k; simp [topicKeys]
  | cons t ts ih =>
    intro acc k
    simp only [List.foldl_cons]
    by_cases h : keyHeld acc t = true
    · rw [if_pos h, ih]
      have ht : t.id ∈ topicKeys acc := (keyHeld_iff acc t).mp h
      simp only [topicKeys, List.map_cons, List.mem_cons] at *
      constructor
      · rintro (hk | hk)
        · exact Or.inl hk
        · exact Or.inr (Or.inr hk)
      · rintro (hk | rfl | hk)
        · exact Or.inl hk
        · exact Or.inl ht
        · exact Or.inr hk
    · rw [if_neg h, ih]
      simp only [topicKeys, List.map_append, List.map_cons, List.map_nil,
        List.mem_append, List.mem_cons, List.mem_singleton, List.not_mem_nil, or_false]
      tauto

theorem mem_topicKeys_setOfTopics (ts : List (WebsocketTopic H)) (k : String) :
    k ∈ topicKeys (setOfTopics ts) ↔ k ∈ topicKeys ts := by
  have h := mem_topicKeys_foldl ts [] k
  simpa [setOfTopics, topicKeys] using h

theorem nodup_topicKeys_foldl (ts : List (WebsocketTopic H)) :
    ∀ acc, (topicKeys acc).Nodup →
      (topicKeys
        (ts.foldl (fun acc t => if keyHeld acc t then acc else acc ++ [t]) acc)).Nodup := by
  induction ts with
  | nil => intro acc h; simpa using h
  | cons t ts ih =>
    intro acc h
    simp only [List.foldl_cons]
    by_cases hk : keyHeld acc t = true
    · rw [if_pos hk]
      exact ih acc h
    · rw [if_neg hk]
      refine ih (acc ++ [t]) ?_
      have hni : t.id ∉ topicKeys acc :=
        (keyHeld_eq_false_iff acc t).mp (Bool.not_eq_true _ ▸ hk)
      rw [topicKeys_append, List.nodup_append]
      refine ⟨h, by simp [topicKeys], ?_⟩
      intro k hk1 hk2
      have hkt : k = t.id := by simpa [topicKeys] using hk2
      exact hni (hkt ▸ hk1)

theorem nodup_topicKeys_setOfTopics (ts : List (WebsocketTopic H)) :
    (topicKeys (setOfTopics ts)).Nodup :=
  nodup_topicKeys_foldl ts [] (by simp [topicKeys])

theorem mem_topicKeys_filter_not_held (held ts : List (WebsocketTopic H)) (k : String) :
    k ∈ topicKeys (ts.filter (fun t => !keyHeld held t)) ↔
      k ∈ topicKeys ts ∧ k ∉ topicKeys held := by
  rw [mem_topicKeys, mem_topicKeys]
  constructor
  · rintro ⟨t, hmem, rfl⟩
    rw [List.mem_filter] at hmem
    obtain ⟨hts, hflag⟩ := hmem
    have hf : keyHeld held t = false := by
      cases hkh : keyHeld held t
      · rfl
      · rw [hkh] at hflag
        cases hflag
    exact ⟨⟨t, hts, rfl⟩, (keyHeld_eq_false_iff held t).mp hf⟩
  · rintro ⟨⟨t, hmem, rfl⟩, hnk⟩
    refine ⟨t, List.mem_filter.mpr ⟨hmem, ?_⟩, rfl⟩
    have hf : keyHeld held t = false := (keyHeld_eq_false_iff held t).mpr hnk
    simp [hf]

theorem add_topics_eq_of_empty (held : List (WebsocketTopic H)) (auth : String)
    (new : List (WebsocketTopic H))
    (he : ((setOfTopics new).filter (fun t => !keyHeld held t)).isEmpty = true) :
    add_topics held auth new = { topics := held, sent := none, error := false } := by
  simp only [add_topics]
  rw [if_pos he]

theorem add_topics_eq_of_full (held : List (WebsocketTopic H)) (auth : String)
    (new : List (WebsocketTopic H))
    (he : ¬ ((setOfTopics new).filter (fun t => !keyHeld held t)).isEmpty = true)
    (hc : 50 ≤ (held ++ (setOfTopics new).filter (fun t => !keyHeld held t)).length) :
    add_topics held auth new =
      { topics := held ++ (setOfTopics new).filter (fun t => !keyHeld held t),
        sent := none, error := true } := by
  simp only [add_topics]
  rw [if_neg he, if_pos hc]

theorem add_topics_eq_of_room (held : List (WebsocketTopic H)) (auth : String)
    (new : List (WebsocketTopic H))
    (he : ¬ ((setOfTopics new).filter (fun t => !keyHeld held t)).isEmpty = true)
    (hc : ¬ 50 ≤ (held ++ (setOfTopics new).filter (fun t => !keyHeld held t)).length) :
    add_topics held auth new =
      { topics := held ++ (setOfTopics new).filter (fun t => !keyHeld held t),
        sent := some
          { topics := ((setOfTopics new).filter (fun t => !keyHeld held t)).map (fun t => t.id),
            auth_token := auth },
        error := false } := by
  simp only [add_topics]
  rw [if_neg he, if_neg hc]

theorem add_topics_mem_keys (held : List (WebsocketTopic H)) (auth : String)
    (new : List (WebsocketTopic H)) (k : String) :
    k ∈ topicKeys (add_topics held auth new).topics ↔
      k ∈ topicKeys held ∨ k ∈ topicKeys new := by
  by_cases he : ((setOfTopics new).filter (fun t => !keyHeld held t)).isEmpty = true
  · rw [add_topics_eq_of_empty held auth new he]
    have hsub : ∀ k', k' ∈ topicKeys new → k' ∈ topicKeys held := by
      intro k' hk'
      by_contra hnk'
      have hmem : k' ∈ topicKeys ((setOfTopics new).filter (fun t => !keyHeld held t)) :=
        (mem_topicKeys_filter_not_held held (setOfTopics new) k').mpr
          ⟨(mem_topicKeys_setOfTopics new k').mpr hk', hnk'⟩
      rw [List.isEmpty_iff] at he
      simp [he, topicKeys] at hmem
    constructor
    · exact Or.inl
    · rintro (h | h)
      · exact h
      · exact hsub k h
  · have hmem : k ∈ topicKeys (held ++ (setOfTopics new).filter (fun t => !keyHeld held t)) ↔
        k ∈ topicKeys held ∨ (k ∈ topicKeys new ∧ k ∉ topicKeys held) := by
      rw [topicKeys_append, List.mem_append, mem_topicKeys_filter_not_held,
        mem_topicKeys_setOfTopics]
    by_cases hc : 50 ≤ (held ++ (setOfTopics new).filter (fun t => !keyHeld held t)).length
    · rw [add_topics_eq_of_full held auth new he hc]
      rw [hmem]
      tauto
    · rw [add_topics_eq_of_room held auth new he hc]
      rw [hmem]
      tauto

theorem add_topics_nodup (held : List (WebsocketTopic H)) (auth : String)
    (new : List (WebsocketTopic H)) (h : (topicKeys held).Nodup) :
    (topicKeys (add_topics held auth new).topics).Nodup := by
  by_cases he : ((setOfTopics new).filter (fun t => !keyHeld held t)).isEmpty = true
  · rw [add_topics_eq_of_empty held auth new he]
    exact h
  · have hnd : (topicKeys (held ++ (setOfTopics new).filter (fun t => !keyHeld held t))).Nodup := by
      rw [topicKeys_append, List.nodup_append]
      refine ⟨h, ?_, ?_⟩
      · have hsub : List.Sublist
            (topicKeys ((setOfTopics new).filter (fun t => !keyHeld held t)))
            (topicKeys (setOfTopics new)) :=
          List.Sublist.map _ (List.filter_sublist _)
        exact (nodup_topicKeys_setOfTopics new).sublist hsub
      · intro k hk₁ hk₂
        exact ((mem_topicKeys_filter_not_held held (setOfTopics new) k).mp hk₂).2 hk₁
    by_cases hc : 50 ≤ (held ++ (setOfTopics new).filter (fun t => !keyHeld held t)).length
    · rw [add_topics_eq_of_full held auth new he hc]
      exact hnd
    · rw [add_topics_eq_of_room held auth new he hc]
      exact hnd

theorem add_topics_error_spec (held : List (WebsocketTopic H)) (auth : String)
    (new : List (WebsocketTopic H)) (he : (add_topics held auth new).error = true) :
    50 ≤ (add_topics held auth new).topics.length := by
  by_cases hemp : ((setOfTopics new).filter (fun t => !keyHeld held t)).isEmpty = true
  · rw [add_topics_eq_of_empty held auth new hemp] at he
    cases he
  · by_cases hc : 50 ≤ (held ++ (setOfTopics new).filter (fun t => !keyHeld held t)).length
    · rw [add_topics_eq_of_full held auth new hemp hc]
      exact hc
    · rw [add_topics_eq_of_room held auth new hemp hc] at he
      cases he

theorem add_topics_seq_mem_keys (auth : String) :
    ∀ (calls : List (List (WebsocketTopic H))) (held : List (WebsocketTopic H)) (k : String),
      k ∈ topicKeys (add_topics_seq held auth calls) ↔
        k ∈ topicKeys held ∨ ∃ c ∈ calls, k ∈ topicKeys c := by
  intro calls
  induction calls with
  | nil => intro held k; simp [add_topics_seq]
  | cons c cs ih =>
    intro held k
    simp only [add_topics_seq]
    rw [ih, add_topics_mem_keys]
    simp only [List.mem_cons]
    constructor
    · rintro ((h | h) | ⟨c', hc', h⟩)
      · exact Or.inl h
      · exact Or.inr ⟨c, Or.inl rfl, h⟩
      · exact Or.inr ⟨c', Or.inr hc', h⟩
    · rintro (h | ⟨c', rfl | hc', h⟩)
      · exact Or.inl (Or.inl h)
      · exact Or.inl (Or.inr h)
      · exact Or.inr ⟨c', hc', h⟩

theorem add_topics_seq_nodup (auth : String) :
    ∀ (calls : List (List (WebsocketTopic H))) (held : List (WebsocketTopic H)),
      (topicKeys held).Nodup → (topicKeys (add_topics_seq held auth calls)).Nodup := by
  intro calls
  induction calls with
  | nil => intro held h; simpa [add_topics_seq] using h
  | cons c cs ih =>
    intro held h
    exact ih _ (add_topics_nodup held auth c h)

/-- C1 amended: for every sequence of `add_topics` calls, the held Subscription
Set after all calls equals the union of all topics passed, deduplicated by key
(including topics added by calls that raised); an add whose committed union
reaches 50 or more raises the capacity error after committing the union, so the
held set is mutated on the error path and can reach or exceed the ceiling. -/
theorem C1_amended_union_and_capacity (H : Type) (held : List (WebsocketTopic H))
    (auth : String) (calls : List (List (WebsocketTopic H)))
    (hnd : (topicKeys held).Nodup) :
    ((topicKeys (add_topics_seq held auth calls)).Nodup ∧
      ∀ k, k ∈ topicKeys (add_topics_seq held auth calls) ↔
        k ∈ topicKeys held ∨ ∃ c ∈ calls, k ∈ topicKeys c) ∧
    ∀ new, (add_topics held auth new).error = true →
      50 ≤ (add_topics held auth new).topics.length ∧
      ∀ k, k ∈ topicKeys (add_topics held auth new).topics ↔
        k ∈ topicKeys held ∨ k ∈ topicKeys new :=
  ⟨⟨add_topics_seq_nodup auth calls held hnd,
      fun k => add_topics_seq_mem_keys auth calls held k⟩,
    fun new he =>
      ⟨add_topics_error_spec held auth new he,
        fun k => add_topics_mem_keys held auth new k⟩⟩

/-- Witness for the amended C1: one call adding topic "a" to an empty set. -/
theorem C1_witness :
    (topicKeys (add_topics_seq ([] : List (WebsocketTopic Nat)) "tok" [[⟨"a", 0⟩]])).Nodup ∧
    "a" ∈ topicKeys (add_topics_seq ([] : List (WebsocketTopic Nat)) "tok" [[⟨"a", 0⟩]]) := by
  have h := C1_amended_union_and_capacity Nat [] "tok" [[⟨"a", 0⟩]] (by simp [topicKeys])
  refine ⟨h.1.1, (h.1.2 "a").mpr ?_⟩
  exact Or.inr ⟨[⟨"a", 0⟩], by simp, by simp [topicKeys]⟩

/-- Forty-nine distinct held topics, keys "0" … "48". -/
def held49 : List (WebsocketTopic Nat) :=
  (List.range 49).map (fun i => ⟨toString i, 0⟩)

/-- Fifty-one distinct topics, keys "0" … "50". -/
def topics51 : List (WebsocketTopic Nat) :=
  (List.range 51).map (fun i => ⟨toString i, 0⟩)

/-- C1 counterexample: with 49 topics held, adding one more topic makes the
union exactly 50 — which does not exceed 50 — yet the call raises the capacity
error, and it leaves the held set mutated at 50 topics instead of the 49 held
before the call.  A single call adding 51 fresh topics to an empty set commits
all 51, so the held set can even exceed the ceiling. -/
theorem C1_counterexample :
    ((add_topics held49 "tok" [⟨"x", 0⟩]).error = true ∧
      (add_topics held49 "tok" [⟨"x", 0⟩]).topics.length = 50 ∧
      held49.length = 49) ∧
    (add_topics ([] : List (WebsocketTopic Nat)) "tok" topics51).topics.length = 51 := by
  set_option maxRecDepth 100000 in decide

/-- C2 amended: every LISTEN request emitted by `add_topics` carries the current
authorization credential and exactly the keys of the newly added topics (those
passed in and not already held) — not the full updated membership list. -/
theorem C2_amended_listen_new_only (H : Type) (held : List (WebsocketTopic H))
    (auth : String) (new : List (WebsocketTopic H)) (m : ListenMsg)
    (h : (add_topics held auth new).sent = some m) :
    m.auth_token = auth ∧
    ∀ k, k ∈ m.topics ↔ k ∈ topicKeys new ∧ k ∉ topicKeys held := by
  by_cases hemp : ((setOfTopics new).filter (fun t => !keyHeld held t)).isEmpty = true
  · rw [add_topics_eq_of_empty held auth new hemp] at h
    cases h
  · by_cases hc : 50 ≤ (held ++ (setOfTopics new).filter (fun t => !keyHeld held t)).length
    · rw [add_topics_eq_of_full held auth new hemp hc] at h
      cases h
    · rw [add_topics_eq_of_room held auth new hemp hc] at h
      obtain rfl := (Option.some.injEq _ _).mp h
      refine ⟨rfl, fun k => ?_⟩
      have hk : (((setOfTopics new).filter (fun t => !keyHeld held t)).map (fun t => t.id) : List String) =
          topicKeys ((setOfTopics new).filter (fun t => !keyHeld held t)) := rfl
      rw [hk, mem_topicKeys_filter_not_held, mem_topicKeys_setOfTopics]

/-- Witness for the amended C2: topic "a" already held, topics "a" and "b"
passed; the LISTEN carries key "b" (new) and not key "a" (held). -/
theorem C2_witness :
    (⟨["b"], "tok"⟩ : ListenMsg).auth_token = "tok" ∧
    ("b" ∈ (⟨["b"], "tok"⟩ : ListenMsg).topics ↔
      "b" ∈ topicKeys ([⟨"a", 0⟩, ⟨"b", 0⟩] : List (WebsocketTopic Nat)) ∧
      "b" ∉ topicKeys ([⟨"a", 0⟩] : List (WebsocketTopic Nat))) := by
  have h := C2_amended_listen_new_only Nat [⟨"a", 0⟩] "tok" [⟨"a", 0⟩, ⟨"b", 0⟩]
    ⟨["b"], "tok"⟩ (by decide)
  exact ⟨h.1, h.2 "b"⟩

/-- C2 counterexample: with topic "a" held and topics "a", "b" passed, the
emitted LISTEN request lists only the new key "b"; the held key "a" — part of
the full updated membership — is absent, refuting the claim that the request
carries every held topic's key. -/
theorem C2_counterexample :
    (add_topics [(⟨"a", 0⟩ : WebsocketTopic Nat)] "tok" [⟨"a", 0⟩, ⟨"b", 0⟩]).sent =
      some { topics := ["b"], auth_token := "tok" } := by
  decide

/-! The connection pump and message router (websocket.py, `Websocket.connect`
lines 50-122), the request registry (`Websocket.send`, lines 144-158) and the
ping loop (`Websocket._ping_loop`, lines 131-142). -/

/-- An outbound message as `Websocket.send` receives it: the heartbeat PING or
an `add_topics` LISTEN. -/
inductive OutMsg where
  | ping
  | listen (topics : List String) (auth_token : String)
deriving DecidableEq

/-- The mutable state of the `Websocket` object that the pump, the ping loop
and the reconnect loop touch: the `connected` and `reconnect` events, the
pending futures of `_recv_dict` (nonce, plus whether the future is already
done), the held `_topics`, the `_send_queue` of (nonce, message) pairs, and
whether `_ping_task` exists. -/
structure WsState (H : Type) where
  connected : Bool
  reconnect : Bool
  recvDict : List (String × Bool)
  topics : List (WebsocketTopic H)
  sendQueue : List (String × OutMsg)
  pingTask : Bool
deriving DecidableEq

/-- A decoded inbound frame, by the `type` discriminator the pump reads
(websocket.py 70-90): PONG, RESPONSE with its nonce, RECONNECT, MESSAGE with
the `data.topic` key and the still-JSON-encoded `data.message` string, or
anything else. -/
inductive Frame where
  | pong
  | response (nonce : String)
  | reconnectReq
  | message (topic : String) (payload : String)
  | unknown
deriving DecidableEq

/-- Observable effects of handling one inbound frame: resolving a pending
future (`set_result`) registered under a nonce, invoking a topic handler on
the decoded inner payload, or logging an unrecognized frame. -/
inductive Effect (H P : Type) where
  | resolve (nonce : String)
  | invoke (handler : H) (payload : P)
  | logUnknown
deriving DecidableEq

/-- Python `dict.pop(nonce, …)` on `_recv_dict`: drop the binding for the
nonce. -/
def popNonce (d : List (String × Bool)) (n : String) : List (String × Bool) :=
  d.filter (fun e => !(e.1 == n))

/-- The frame dispatch of the pump body (websocket.py 70-90).  `dec` stands
for the inner `json.loads`.  An `Except.error` is an uncaught exception
escaping the dispatch: `KeyError` from `self._recv_dict.pop(message["nonce"])`
on an unknown nonce, or `InvalidStateError` from `set_result` on a future
already done.  PONG pops the reserved "PING" nonce with a `None` default and
checks `done()` before resolving; MESSAGE scans `_topics` for the one topic
equal (by key) to `data.topic` and invokes its handler on
`json.loads(data.message)`, silently dropping the frame when none matches. -/
def handle_frame (dec : String → P) (st : WsState H) (f : Frame) :
    Except Unit (WsState H × List (Effect H P)) :=
  match f with
  | .pong =>
    match st.recvDict.find? (fun e => e.1 == "PING") with
    | some e =>
      if e.2 then .ok ({ st with recvDict := popNonce st.recvDict "PING" }, [])
      else .ok ({ st with recvDict := popNonce st.recvDict "PING" }, [.resolve "PING"])
    | none => .ok (st, [])
  | .response n =>
    match st.recvDict.find? (fun e => e.1 == n) with
    | some e =>
      if e.2 then .error ()
      else .ok ({ st with recvDict := popNonce st.recvDict n }, [.resolve n])
    | none => .error ()
  | .reconnectReq => .ok ({ st with reconnect := true }, [])
  | .message t p =>
    match st.topics.find? (fun tp => tp.id == t) with
    | some tp => .ok (st, [.invoke tp.process (dec p)])
    | none => .ok (st, [])
  | .unknown => .ok (st, [.logUnknown])

theorem find?_key_of_mem (f : α → String) (l : List α) (k : String)
    (hnd : (l.map f).Nodup) (a : α) (ha : a ∈ l) (hk : f a = k) :
    l.find? (fun x => f x == k) = some a := by
  induction l with
  | nil => cases ha
  | cons x xs ih =>
    rw [List.map_cons, List.nodup_cons] at hnd
    rcases List.mem_cons.mp ha with rfl | hmem
    · have hp : (f a == k) = true := beq_iff_eq.mpr hk
      simp [List.find?, hp]
    · have hne : f x ≠ k := by
        intro he
        have hin : k ∈ xs.map f := List.mem_map.mpr ⟨a, hmem, hk⟩
        exact hnd.1 (he ▸ hin)
      have hb : (f x == k) = false := beq_eq_false_iff_ne.mpr hne
      simp only [List.find?, hb]
      exact ih hnd.2 hmem

theorem find?_key_of_not_mem (f : α → String) (l : List α) (k : String)
    (hk : k ∉ l.map f) : l.find? (fun x => f x == k) = none := by
  rw [List.find?_eq_none]
  intro x hx
  simp only [beq_iff_eq]
  intro he
  exact hk (he ▸ List.mem_map.mpr ⟨x, hx, rfl⟩)

/-- C4 amended: a reply frame whose token has a pending not-yet-done slot
resolves exactly that slot exactly once and removes it from the pending map —
for correlated RESPONSE replies and for the reserved heartbeat token alike.
For the heartbeat token, a PONG with no pending "PING" slot changes no state
and raises no exception, and a PONG whose "PING" slot is already done (a stale
future cancelled by the `wait_for` timeout) silently discards the stale
binding, resolving nothing and raising nothing.  For correlated RESPONSE
replies, however, a second reply with the same token, or any reply with an
unknown token, raises KeyError from the defaultless `dict.pop`, and a reply
whose slot is already done raises InvalidStateError from `set_result` — an
exception escaping to the pump's catch-all, which forces a reconnect, instead
of a logged no-op. -/
theorem C4_amended_response_resolution (P H : Type) (dec : String → P)
    (st : WsState H) (n : String) (hnd : (st.recvDict.map Prod.fst).Nodup) :
    ((n, false) ∈ st.recvDict →
      handle_frame dec st (.response n) =
        .ok ({ st with recvDict := popNonce st.recvDict n }, [.resolve n])) ∧
    (n ∉ st.recvDict.map Prod.fst →
      handle_frame dec st (.response n) = .error ()) ∧
    ((n, true) ∈ st.recvDict →
      handle_frame dec st (.response n) = .error ()) ∧
    (("PING", false) ∈ st.recvDict →
      handle_frame dec st .pong =
        .ok ({ st with recvDict := popNonce st.recvDict "PING" }, [.resolve "PING"])) ∧
    (("PING", true) ∈ st.recvDict →
      handle_frame dec st .pong =
        .ok ({ st with recvDict := popNonce st.recvDict "PING" }, [])) ∧
    ("PING" ∉ st.recvDict.map Prod.fst →
      handle_frame dec st .pong = .ok (st, [])) := by
  refine ⟨fun hmem => ?_, fun hnm => ?_, fun hmem => ?_, fun hmem => ?_,
    fun hmem => ?_, fun hnp => ?_⟩
  · have hf := find?_key_of_mem Prod.fst st.recvDict n hnd (n, false) hmem rfl
    simp [handle_frame, hf]
  · have hf := find?_key_of_not_mem Prod.fst st.recvDict n hnm
    simp [handle_frame, hf]
  · have hf := find?_key_of_mem Prod.fst st.recvDict n hnd (n, true) hmem rfl
    simp [handle_frame, hf]
  · have hf := find?_key_of_mem Prod.fst st.recvDict "PING" hnd ("PING", false) hmem rfl
    simp [handle_frame, hf]
  · have hf := find?_key_of_mem Prod.fst st.recvDict "PING" hnd ("PING", true) hmem rfl
    simp [handle_frame, hf]
  · have hf := find?_key_of_not_mem Prod.fst st.recvDict "PING" hnp
    simp [handle_frame, hf]

/-- Witness for the amended C4, at a pending map holding a not-done slot under
nonce "abc" and a not-done "PING" slot: the RESPONSE resolves and removes the
"abc" slot exactly once, and the PONG resolves and removes the "PING" slot
exactly once. -/
theorem C4_witness :
    (handle_frame (fun s => s)
      (⟨true, false, [("abc", false), ("PING", false)],
        ([] : List (WebsocketTopic Nat)), [], true⟩ : WsState Nat)
      (.response "abc") =
      .ok (⟨true, false, [("PING", false)], [], [], true⟩, [.resolve "abc"])) ∧
    (handle_frame (fun s => s)
      (⟨true, false, [("abc", false), ("PING", false)],
        ([] : List (WebsocketTopic Nat)), [], true⟩ : WsState Nat)
      .pong =
      .ok (⟨true, false, [("abc", false)], [], [], true⟩, [.resolve "PING"])) := by
  constructor
  · have h := (C4_amended_response_resolution String Nat (fun s => s)
        ⟨true, false, [("abc", false), ("PING", false)], [], [], true⟩ "abc"
        (by decide)).1 (by decide)
    simpa [popNonce] using h
  · have h := (C4_amended_response_resolution String Nat (fun s => s)
        ⟨true, false, [("abc", false), ("PING", false)], [], [], true⟩ "abc"
        (by decide)).2.2.2.1 (by decide)
    simpa [popNonce] using h

/-- C4 counterexample: a RESPONSE frame whose nonce has no pending slot does
not leave state unchanged without raising — it raises KeyError (an error
escaping the dispatch), refuting the no-op claim for correlated replies. -/
theorem C4_counterexample :
    handle_frame (fun s => s)
      (⟨true, false, [], ([] : List (WebsocketTopic Nat)), [], true⟩ : WsState Nat)
      (.response "abc") = .error () := rfl

/-- C7: a MESSAGE frame whose `data.topic` key equals the key of a held topic
invokes exactly that topic's handler exactly once, on `dec` applied to the
`data.message` string (the second JSON decode), with the state unchanged; a
MESSAGE frame whose key matches no held topic is dropped — no handler runs, no
state changes and no exception escapes, so the pump survives. -/
theorem C7_message_dispatch (P H : Type) (dec : String → P) (st : WsState H)
    (t payload : String) (hnd : (topicKeys st.topics).Nodup) :
    (∀ tp, tp ∈ st.topics → tp.id = t →
      handle_frame dec st (.message t payload) =
        .ok (st, [.invoke tp.process (dec payload)])) ∧
    (t ∉ topicKeys st.topics →
      handle_frame dec st (.message t payload) = .ok (st, [])) := by
  constructor
  · intro tp hmem hkey
    have hf := find?_key_of_mem (fun u : WebsocketTopic H => u.id) st.topics t hnd tp hmem hkey
    simp [handle_frame, hf]
  · intro hnm
    have hf := find?_key_of_not_mem (fun u : WebsocketTopic H => u.id) st.topics t hnm
    simp [handle_frame, hf]

/-- Witness for C7: the held topic "community-points-user-v1.1" (handler 7)
is dispatched exactly once on the decoded payload. -/
theorem C7_witness :
    handle_frame (fun s => s)
      (⟨true, false, [], [⟨"community-points-user-v1.1", (7 : Nat)⟩], [], true⟩ : WsState Nat)
      (.message "community-points-user-v1.1" "payload") =
      .ok (⟨true, false, [], [⟨"community-points-user-v1.1", 7⟩], [], true⟩,
        [.invoke 7 "payload"]) :=
  (C7_message_dispatch String Nat (fun s => s)
      ⟨true, false, [], [⟨"community-points-user-v1.1", 7⟩], [], true⟩
      "community-points-user-v1.1" "payload" (by decide)).1
    ⟨"community-points-user-v1.1", 7⟩ (by decide) rfl

/-- Actions at the head of each iteration of the connect/reconnect loop
(websocket.py 51-56): clear the reconnect event, set readiness, start a fresh
ping task. -/
inductive ConnAction where
  | clearReconnect
  | setConnected
  | startPingLoop
deriving DecidableEq

/-- Websocket.connect lines 51-56: what every successful (re)connection
performs before entering the pump. -/
def connection_setup (st : WsState H) : WsState H × List ConnAction :=
  ({ st with reconnect := false, connected := true, pingTask := true },
    [.clearReconnect, .setConnected, .startPingLoop])

/-- One cycle of `Websocket._ping_loop` (websocket.py 134-142): when the
`connected` event is down the while-loop exits; otherwise a PING is sent —
enqueued under the reserved "PING" nonce with a fresh future registered (the
registration overwrites any stale "PING" binding) — and the loop waits up to
10 seconds for the reply.  `replyInTime = false` is the `TimeoutError` branch:
set the reconnect event and break.  The returned flag says whether the loop
continues with another cycle (sleep, then next heartbeat). -/
def ping_cycle (st : WsState H) (replyInTime : Bool) : WsState H × Bool :=
  if !st.connected then (st, false)
  else
    let st₀ := { st with sendQueue := st.sendQueue ++ [("PING", OutMsg.ping)] }
    let st₁ := { st₀ with recvDict := popNonce st₀.recvDict "PING" ++ [("PING", false)] }
    if !replyInTime then ({ st₁ with reconnect := true }, false)
    else (st₁, true)

/-- C8: a heartbeat cycle whose reply does not resolve within the timeout sets
the reconnect event and stops the monitor loop within that same cycle (the
continue flag is false, so no further heartbeat is sent); and every successful
new connection starts a fresh heartbeat monitor: the setup performed on each
new connection includes `startPingLoop` and leaves a ping task in place. -/
theorem C8_heartbeat_timeout_reconnect (H : Type) (st : WsState H)
    (hc : st.connected = true) :
    ((ping_cycle st false).1.reconnect = true ∧ (ping_cycle st false).2 = false) ∧
    ((connection_setup st).1.pingTask = true ∧
      ConnAction.startPingLoop ∈ (connection_setup st).2) := by
  refine ⟨?_, rfl, by simp [connection_setup]⟩
  simp [ping_cycle, hc]

/-- Witness for C8 at a concrete connected state. -/
theorem C8_witness :
    ((ping_cycle (⟨true, false, [], ([] : List (WebsocketTopic Nat)), [], true⟩ : WsState Nat)
        false).1.reconnect = true ∧
      (ping_cycle (⟨true, false, [], ([] : List (WebsocketTopic Nat)), [], true⟩ : WsState Nat)
        false).2 = false) ∧
    ((connection_setup (⟨true, false, [], ([] : List (WebsocketTopic Nat)), [], true⟩ :
        WsState Nat)).1.pingTask = true ∧
      ConnAction.startPingLoop ∈
        (connection_setup (⟨true, false, [], ([] : List (WebsocketTopic Nat)), [], true⟩ :
          WsState Nat)).2) :=
  C8_heartbeat_timeout_reconnect Nat ⟨true, false, [], [], [], true⟩ rfl

/-- A frame actually sent on the wire (websocket.py 96-101): each queued
message is stamped with its nonce unless the nonce is the reserved "PING". -/
structure SentFrame where
  nonce : Option String
  msg : OutMsg
deriving DecidableEq

/-- The nonce stamping of websocket.py 99-100. -/
def stamp (e : String × OutMsg) : SentFrame :=
  if e.1 == "PING" then { nonce := none, msg := e.2 }
  else { nonce := some e.1, msg := e.2 }

/-- One iteration of the inner pump while-loop (websocket.py 58-102): an
optional received frame (`none` is the 0.5-second receive timeout) is
dispatched; if the reconnect event is then set, the loop exits early without
sending; otherwise the send queue is drained and everything in it is sent.
An `Except.error` is an exception escaping the loop body. -/
def pump_cycle (dec : String → P) (st : WsState H) (recv : Option Frame) :
    Except Unit (WsState H × List SentFrame) :=
  match recv with
  | none => .ok ({ st with sendQueue := [] }, st.sendQueue.map stamp)
  | some f =>
    match handle_frame dec st f with
    | .error e => .error e
    | .ok (st', _effs) =>
      if st'.reconnect then .ok (st', [])
      else .ok ({ st' with sendQueue := [] }, st'.sendQueue.map stamp)

/-- The pump loop (websocket.py 58-102) over a list of receive results,
stopping when the reconnect event is set and collecting every sent frame. -/
def pump_run (dec : String → P) (st : WsState H) :
    List (Option Frame) → Except Unit (WsState H × List SentFrame)
  | [] => .ok (st, [])
  | r :: rs =>
    if st.reconnect then .ok (st, [])
    else
      match pump_cycle dec st r with
      | .error e => .error e
      | .ok (st', sent) =>
        match pump_run dec st' rs with
        | .error e => .error e
        | .ok (st'', sent') => .ok (st'', sent ++ sent')

/-- One full iteration of the connect/reconnect loop (websocket.py 50-104):
the setup of lines 51-56 followed by the pump.  The iteration itself enqueues
nothing: the only producers of outbound messages are the callers of
`Websocket.send`, namely `add_topics` and the ping loop, and `connect` calls
`add_topics` only once, before the loop, for the two initial user topics. -/
def connection_iteration (dec : String → P) (st : WsState H)
    (recvs : List (Option Frame)) : Except Unit (WsState H × List SentFrame) :=
  pump_run dec (connection_setup st).1 recvs

/-- C3: the code does not re-announce the held Subscription Set after a
reconnect.  Starting from the state right after a dropped connection — topic
"user-drop-events.1" held, reconnect pending, send queue empty — a complete
new connection iteration that reaches readiness and pumps quietly emits no
frame at all: in particular no LISTEN request carrying the held set, although
the claim requires exactly one re-announcement. -/
theorem C3_no_reannounce_after_reconnect :
    connection_iteration (fun s => s)
      (⟨false, true, [], [⟨"user-drop-events.1", (0 : Nat)⟩], [], false⟩ : WsState Nat)
      [none, none, none] =
      .ok (⟨true, false, [], [⟨"user-drop-events.1", 0⟩], [], true⟩, []) := rfl

end TDM
